import Mathlib

/-!
Shallow embedding of the pyclaw example scripts
`apps/advection/2d/annulus/advection_annulus.py` and
`examples/euler_2d/euler_2d.py`, together with theorems checking the
natural-language specification against the code.

Numpy arrays are modelled as a shape together with a total indexing
function (entries outside the shape are junk, as with `np.empty`);
elementwise numpy expressions become pointwise Lean expressions.
Python floats are modelled as exact reals (the euler initial data,
which is rational throughout, is modelled over `ℚ` so that it can be
evaluated by `decide`/`norm_num`).
-/

/-- Two-dimensional numpy-style array of reals: a shape `(n1, n2)` and a
total indexing function. -/
structure Arr2 where
  n1 : ℕ
  n2 : ℕ
  data : ℕ → ℕ → ℝ

/-- Three-dimensional numpy-style array of reals: a shape `(n1, n2, n3)`
and a total indexing function. -/
structure Arr3 where
  n1 : ℕ
  n2 : ℕ
  n3 : ℕ
  data : ℕ → ℕ → ℕ → ℝ

/-- The stream function of `advection_annulus.py`
(`streamValue = np.pi*(xp**2 + yp**2)`), written pointwise; the numpy
version applies it elementwise to coordinate arrays. -/
noncomputable def stream (xp yp : ℝ) : ℝ :=
  Real.pi * (xp ^ 2 + yp ^ 2)

/-- `velocities_capa(xp, yp, dx, dy)` from `advection_annulus.py`.
`xp`, `yp` are corner-coordinate arrays of shape `(mx+1, my+1)`; the
result has shape `(3, mx, my)`: row 0 holds the left-edge velocities
`(stream(xp1,yp1) - stream(xp0,yp0))/dy`, row 1 the bottom-edge
velocities `-(stream(xp3,yp3) - stream(xp0,yp0))/dx`, and row 2 the
capacity `area/(dx*dy)` with `area` given by the shoelace formula over
the four corners.  The numpy slices `xp[:mx,:my]`, `xp[:mx,1:]`,
`xp[1:,1:]`, `xp[1:,:my]` become the corner offsets `(i,j)`, `(i,j+1)`,
`(i+1,j+1)`, `(i+1,j)`. -/
noncomputable def velocities_capa (xp yp : Arr2) (dx dy : ℝ) : Arr3 :=
  let mx := xp.n1 - 1
  let my := xp.n2 - 1
  ⟨3, mx, my, fun f i j =>
    let xp0 := xp.data i j
    let yp0 := yp.data i j
    let xp1 := xp.data i (j + 1)
    let yp1 := yp.data i (j + 1)
    let xp2 := xp.data (i + 1) (j + 1)
    let yp2 := yp.data (i + 1) (j + 1)
    let xp3 := xp.data (i + 1) j
    let yp3 := yp.data (i + 1) j
    if f = 0 then
      (stream xp1 yp1 - stream xp0 yp0) / dy
    else if f = 1 then
      -(stream xp3 yp3 - stream xp0 yp0) / dx
    else if f = 2 then
      (1 / 2 * ((yp0 + yp1) * (xp1 - xp0) +
                (yp1 + yp2) * (xp2 - xp1) +
                (yp2 + yp3) * (xp3 - xp2) +
                (yp3 + yp0) * (xp0 - xp3))) / (dx * dy)
    else 0⟩

/-- The slice of grid data the boundary callbacks read: the list of
dimensions (identified by name, as pyclaw `Dimension('x',...)` objects
are), the local cell counts `ng`, the cell widths `d` and the lower
bounds `lower`, indexed by dimension number. -/
structure GridT where
  dimensions : List String
  ng : ℕ → ℕ
  d : ℕ → ℝ
  lower : ℕ → ℝ

/-- Modelled from the spec: the helper module `mapc2p` imported by
`velocities_upper`/`velocities_lower` is not under `src/`.  Per the
spec, the annulus mapping callback sends a logical point `(r, θ)` to
the physical point `(r cos θ, r sin θ)`, exactly as `mapc2p_annulus`
in the script does; this is that map applied elementwise to a pair of
coordinate arrays. -/
noncomputable def mapc2p (xc yc : Arr2) : Arr2 × Arr2 :=
  (⟨xc.n1, xc.n2, fun i j => xc.data i j * Real.cos (yc.data i j)⟩,
   ⟨xc.n1, xc.n2, fun i j => xc.data i j * Real.sin (yc.data i j)⟩)

/-- `velocities_upper(grid, dim, t, auxbc, mbc)` from
`advection_annulus.py`.  The in-place slice assignment
`auxbc[:, -mbc:, :] = velocities_capa(...)` becomes a functional update
of the last `mbc` columns of the second index (the code is only called
with `mbc ≥ 1`); the `raise` in the `else` branch becomes a returned
exception message, paired with the final contents of `auxbc`.
`np.meshgrid(yc1d, xc1d)` yields `xc[i,j] = xc1d[i]`,
`yc[i,j] = yc1d[j]` with shape `(mbc+1, my+2*mbc+1)`. -/
noncomputable def velocities_upper (grid : GridT) (dim : String) (t : ℝ)
    (auxbc : Arr3) (mbc : ℕ) : Arr3 × Option String :=
  let mx := grid.ng 0
  let my := grid.ng 1
  let dxc := grid.d 0
  let dyc := grid.d 1
  if dim = grid.dimensions.headI then
    let xc1d : ℕ → ℝ := fun k => grid.lower 0 + dxc * (((mx + mbc + k : ℕ) : ℝ) - (mbc : ℝ))
    let yc1d : ℕ → ℝ := fun k => grid.lower 1 + dyc * ((k : ℝ) - (mbc : ℝ))
    let xc : Arr2 := ⟨mbc + 1, my + 2 * mbc + 1, fun i _ => xc1d i⟩
    let yc : Arr2 := ⟨mbc + 1, my + 2 * mbc + 1, fun _ j => yc1d j⟩
    let p := mapc2p xc yc
    let v := velocities_capa p.1 p.2 dxc dyc
    (⟨auxbc.n1, auxbc.n2, auxbc.n3, fun f i j =>
        if auxbc.n2 - mbc ≤ i ∧ i < auxbc.n2 then
          v.data f (i - (auxbc.n2 - mbc)) j
        else auxbc.data f i j⟩,
     none)
  else
    (auxbc, some "Custum BC for this boundary is not appropriate!")

/-- `velocities_lower(grid, dim, t, auxbc, mbc)` from
`advection_annulus.py`, modelled like `velocities_upper`; here the
slice assignment is `auxbc[:, 0:mbc, :] = velocities_capa(...)` and
`xc1d = lower[0] + dxc*(np.arange(mbc+1) - mbc)`. -/
noncomputable def velocities_lower (grid : GridT) (dim : String) (t : ℝ)
    (auxbc : Arr3) (mbc : ℕ) : Arr3 × Option String :=
  let my := grid.ng 1
  let dxc := grid.d 0
  let dyc := grid.d 1
  if dim = grid.dimensions.headI then
    let xc1d : ℕ → ℝ := fun k => grid.lower 0 + dxc * ((k : ℝ) - (mbc : ℝ))
    let yc1d : ℕ → ℝ := fun k => grid.lower 1 + dyc * ((k : ℝ) - (mbc : ℝ))
    let xc : Arr2 := ⟨mbc + 1, my + 2 * mbc + 1, fun i _ => xc1d i⟩
    let yc : Arr2 := ⟨mbc + 1, my + 2 * mbc + 1, fun _ j => yc1d j⟩
    let p := mapc2p xc yc
    let v := velocities_capa p.1 p.2 dxc dyc
    (⟨auxbc.n1, auxbc.n2, auxbc.n3, fun f i j =>
        if i < mbc then v.data f i j
        else auxbc.data f i j⟩,
     none)
  else
    (auxbc, some "Custum BC for this boundary is not appropriate!")

/-- The slice of grid data `qinit` and `setaux` read: the cached
physical cell-center coordinate arrays `p_center[0]`, `p_center[1]`
(produced by `compute_p_center`, i.e. the grid mapping applied to the
logical cell-center lattice), the physical corner arrays `p_edge[0]`,
`p_edge[1]` (produced by `compute_p_edge`), and the cell widths `d`. -/
structure GridData where
  p_center0 : ℕ → ℕ → ℝ
  p_center1 : ℕ → ℕ → ℝ
  p_edge0 : Arr2
  p_edge1 : Arr2
  d : ℕ → ℝ

/-- The slice of a pyclaw `State` the initializer and aux-setup
callbacks touch: the grid and the solution array `q`. -/
structure St where
  grid : GridData
  q : Arr3

/-- `qinit(state, mx, my)` from `advection_annulus.py`: writes the sum
of two Gaussian pulses into `state.q[0,:,:]` at the physical cell
centers, leaving every other row of `q` as it was (the slice
assignment only touches row 0). -/
noncomputable def qinit (state : St) (mx my : ℕ) : St :=
  let A1 : ℝ := 1
  let beta1 : ℝ := 40
  let x1 : ℝ := -0.5
  let y1 : ℝ := 0
  let A2 : ℝ := -1
  let beta2 : ℝ := 40
  let x2 : ℝ := 0.5
  let y2 : ℝ := 0
  let xp := state.grid.p_center0
  let yp := state.grid.p_center1
  { state with
    q := ⟨state.q.n1, state.q.n2, state.q.n3, fun m i j =>
      if m = 0 then
        A1 * Real.exp (-beta1 * ((xp i j - x1) ^ 2 + (yp i j - y1) ^ 2)) +
        A2 * Real.exp (-beta2 * ((xp i j - x2) ^ 2 + (yp i j - y2) ^ 2))
      else state.q.data m i j⟩ }

/-- `setaux(state, mx, my)` from `advection_annulus.py`: recomputes the
physical corner coordinates and returns
`velocities_capa(pcorners[0], pcorners[1], dxc, dyc)`. -/
noncomputable def setaux (state : St) (mx my : ℕ) : Arr3 :=
  let dxc := state.grid.d 0
  let dyc := state.grid.d 1
  let pcorners := (state.grid.p_edge0, state.grid.p_edge1)
  velocities_capa pcorners.1 pcorners.2 dxc dyc

/-- `mapc2p_annulus(grid, mC)` from `advection_annulus.py`: polar
coordinates, `pC = [mC[0]*cos(mC[1]), mC[0]*sin(mC[1])]` elementwise
(the `grid` argument is unused by the body). -/
noncomputable def mapc2p_annulus (grid : GridT) (mC : Arr2 × Arr2) : Arr2 × Arr2 :=
  (⟨mC.1.n1, mC.1.n2, fun i j => mC.1.data i j * Real.cos (mC.2.data i j)⟩,
   ⟨mC.1.n1, mC.1.n2, fun i j => mC.1.data i j * Real.sin (mC.2.data i j)⟩)

/-- The pointwise action of `mapc2p_annulus` on one logical point
`(r, θ)`: the physical point `(r cos θ, r sin θ)`. -/
noncomputable def annulusMap (p : ℝ × ℝ) : ℝ × ℝ :=
  (p.1 * Real.cos p.2, p.1 * Real.sin p.2)

/-- The logical domain set up by `advection_annulus`: `x` (radius) from
`xlower = 0.2` to `xupper = 1.0`, `y` (angle) from `ylower = 0.0` to
`yupper = 2π`. -/
def annulusDomain : Set (ℝ × ℝ) :=
  Set.Icc 0.2 1 ×ˢ Set.Icc 0 (2 * Real.pi)

/-- A heap of 2-D arrays addressed by identifier, used to record which
arrays the geometry helpers store into. -/
def Heap2 : Type := ℕ → Arr2

/-- A heap of 3-D arrays addressed by identifier. -/
def Heap3 : Type := ℕ → Arr3

/-- Heap-level reading of `stream`: the body `np.pi*(xp**2 + yp**2)`
allocates a fresh elementwise result and performs no store into any
existing array, so the heap comes back unchanged alongside the new
array. -/
noncomputable def streamH (h2 : Heap2) (xpId ypId : ℕ) : Heap2 × Arr2 :=
  (h2, ⟨(h2 xpId).n1, (h2 xpId).n2,
        fun i j => stream ((h2 xpId).data i j) ((h2 ypId).data i j)⟩)

/-- Heap-level reading of `mapc2p_annulus`: the two `pC.append(...)`
lines allocate the products `mC[0]*cos(mC[1])` and `mC[0]*sin(mC[1])`
at the fresh addresses `out0`, `out1`; no existing array is stored
into.  Returns the heap after the call and the addresses of the result
list's two arrays. -/
noncomputable def mapc2p_annulusH (h2 : Heap2) (mC0 mC1 out0 out1 : ℕ) :
    Heap2 × (ℕ × ℕ) :=
  (Function.update
    (Function.update h2 out0
      ⟨(h2 mC0).n1, (h2 mC0).n2,
       fun i j => (h2 mC0).data i j * Real.cos ((h2 mC1).data i j)⟩)
    out1
    ⟨(h2 mC0).n1, (h2 mC0).n2,
     fun i j => (h2 mC0).data i j * Real.sin ((h2 mC1).data i j)⟩,
   (out0, out1))

/-- Heap-level reading of `velocities_capa`: `aux = np.empty((3,mx,my))`
allocates the fresh 3-D array at `auxId` and the three slice
assignments `aux[0,...] = ...`, `aux[1,...] = ...`, `aux[2,...] = ...`
store only into it; the 2-D heap (holding `xp` and `yp`) is untouched.
The contents stored at `auxId` are exactly the pure `velocities_capa`
of the argument arrays. -/
noncomputable def velocities_capaH (h2 : Heap2) (h3 : Heap3)
    (xpId ypId : ℕ) (dx dy : ℝ) (auxId : ℕ) : Heap2 × Heap3 :=
  (h2, Function.update h3 auxId (velocities_capa (h2 xpId) (h2 ypId) dx dy))

/-- Modelled from the spec: the velocity field the annulus scenario
advects by.  The solver itself is not under `src/`; per the spec the
edge velocities are derived from the stream function (`aux[0] = Δψ/dy`,
`aux[1] = -Δψ/dx` in `velocities_capa`), whose continuum limit is the
Hamiltonian field `(∂ψ/∂y, -∂ψ/∂x)` of `stream`. -/
noncomputable def streamVel (p : ℝ × ℝ) : ℝ × ℝ :=
  (deriv (fun y => stream p.1 y) p.2, -(deriv (fun x => stream x p.2) p.1))

/-- The flow map of `streamVel`: clockwise rigid rotation with angular
velocity `2π`, so one full rotation takes exactly `t = 1` (as the
docstring of `stream` states). -/
noncomputable def rotFlow (t : ℝ) (p : ℝ × ℝ) : ℝ × ℝ :=
  (p.1 * Real.cos (2 * Real.pi * t) + p.2 * Real.sin (2 * Real.pi * t),
   -(p.1 * Real.sin (2 * Real.pi * t)) + p.2 * Real.cos (2 * Real.pi * t))

/-- Modelled from the spec: the exact transport semantics of the
advection scenario — the solution value at time `t` is the initial
value at the characteristic's starting point, `q(t, p) = q0(Φ(-t, p))`
where `Φ` is the flow of the velocity field. -/
noncomputable def exactAdvection (q0 : ℝ × ℝ → ℝ) (t : ℝ) (p : ℝ × ℝ) : ℝ :=
  q0 (rotFlow (-t) p)

/-- `gamma = 1.4` from `euler_2d.py` (exact: `7/5`). -/
def gamma : ℚ := 1.4

/-- `euler_2d.py` initial density at a cell with center `(x, y)`:
`q[0] = 2*l*t + 1*l*b + 1*r*t + 3*r*b` with the indicator arrays
`l = xx<0.5`, `r = xx>=0.5`, `b = yy<0.5`, `t = yy>=0.5` (numpy
booleans act as 0/1 in arithmetic). -/
def euler_q0 (x y : ℚ) : ℚ :=
  2 * (if x < 0.5 then (1 : ℚ) else 0) * (if 0.5 ≤ y then (1 : ℚ) else 0) +
  1 * (if x < 0.5 then (1 : ℚ) else 0) * (if y < 0.5 then (1 : ℚ) else 0) +
  1 * (if 0.5 ≤ x then (1 : ℚ) else 0) * (if 0.5 ≤ y then (1 : ℚ) else 0) +
  3 * (if 0.5 ≤ x then (1 : ℚ) else 0) * (if y < 0.5 then (1 : ℚ) else 0)

/-- `euler_2d.py` initial `q[1] = 0.75*t - 0.75*b`. -/
def euler_q1 (x y : ℚ) : ℚ :=
  0.75 * (if 0.5 ≤ y then (1 : ℚ) else 0) - 0.75 * (if y < 0.5 then (1 : ℚ) else 0)

/-- `euler_2d.py` initial `q[2] = 0.5*l - 0.5*r`. -/
def euler_q2 (x y : ℚ) : ℚ :=
  0.5 * (if x < 0.5 then (1 : ℚ) else 0) - 0.5 * (if 0.5 ≤ x then (1 : ℚ) else 0)

/-- `euler_2d.py` initial
`q[3] = 0.5*q[0]*(q[1]**2 + q[2]**2) + 1/(gamma - 1)`. -/
def euler_q3 (x y : ℚ) : ℚ :=
  0.5 * euler_q0 x y * (euler_q1 x y ^ 2 + euler_q2 x y ^ 2) + 1 / (gamma - 1)

/-- The ideal-gas pressure the claim derives from the initial data,
reading `q[1]`, `q[2]` as conserved momenta:
`(gamma-1)*(q[3] - (q[1]^2 + q[2]^2)/(2*q[0]))`. -/
def pressure_from_conserved (x y : ℚ) : ℚ :=
  (gamma - 1) * (euler_q3 x y - (euler_q1 x y ^ 2 + euler_q2 x y ^ 2) / (2 * euler_q0 x y))

/-- Concrete grid for witness instantiations. -/
noncomputable def gEx : GridT :=
  ⟨["x", "y"], fun _ => 4, fun _ => 1, fun _ => 0⟩

/-- Concrete ghost array of shape `(3, 8, 8)` for witness instantiations. -/
def aEx : Arr3 := ⟨3, 8, 8, fun _ _ _ => 0⟩

/-- Concrete `2 × 2` Cartesian corner array, `xp[i,j] = i`. -/
def xpEx : Arr2 := ⟨2, 2, fun i _ => (i : ℝ)⟩

/-- Concrete `2 × 2` Cartesian corner array, `yp[i,j] = j`. -/
def ypEx : Arr2 := ⟨2, 2, fun _ j => (j : ℝ)⟩

/-- Concrete `3 × 3` corner array, `xp[i,j] = i`. -/
def xpEx3 : Arr2 := ⟨3, 3, fun i _ => (i : ℝ)⟩

/-- Concrete `3 × 3` corner array, `yp[i,j] = j`. -/
def ypEx3 : Arr2 := ⟨3, 3, fun _ j => (j : ℝ)⟩

/-- Concrete state for witness instantiations. -/
def stEx : St :=
  ⟨⟨fun _ _ => 0, fun _ _ => 0, xpEx, ypEx, fun _ => 1⟩, ⟨1, 2, 2, fun _ _ _ => 5⟩⟩

/-- Concrete 2-D heap for witness instantiations. -/
def h2Ex : Heap2 := fun _ => xpEx

/-- Concrete 3-D heap for witness instantiations. -/
def h3Ex : Heap3 := fun _ => aEx

/-- `mapc2p_annulus` acts on coordinate arrays exactly as the pointwise
map `annulusMap` does on each entry. -/
theorem mapc2p_annulus_pointwise (grid : GridT) (mC : Arr2 × Arr2) (i j : ℕ) :
    ((mapc2p_annulus grid mC).1.data i j, (mapc2p_annulus grid mC).2.data i j) =
      annulusMap (mC.1.data i j, mC.2.data i j) := rfl

/-- Claim C1: for every uniform Cartesian corner lattice given to
`velocities_capa` — `xp[i,j] = x0 + i*dx`, `yp[i,j] = y0 + j*dy` for
the same (nonzero) `dx`, `dy` passed as arguments, arrays of shape at
least 2×2 — the returned capacity row `aux[2,i,j]` equals 1 for every
cell `(i,j)`, in exact arithmetic. -/
theorem velocities_capa_capa_one_on_cartesian
    (xp yp : Arr2) (x0 y0 dx dy : ℝ)
    (hn1 : 2 ≤ xp.n1) (hn2 : 2 ≤ xp.n2)
    (hdx : dx ≠ 0) (hdy : dy ≠ 0)
    (hx : ∀ i j, i < xp.n1 → j < xp.n2 → xp.data i j = x0 + i * dx)
    (hy : ∀ i j, i < xp.n1 → j < xp.n2 → yp.data i j = y0 + j * dy)
    (i j : ℕ) (hi : i < xp.n1 - 1) (hj : j < xp.n2 - 1) :
    (velocities_capa xp yp dx dy).data 2 i j = 1 := by
  have hi0 : i < xp.n1 := by omega
  have hj0 : j < xp.n2 := by omega
  have hi1 : i + 1 < xp.n1 := by omega
  have hj1 : j + 1 < xp.n2 := by omega
  simp only [velocities_capa]
  norm_num
  rw [hx i j hi0 hj0, hx i (j + 1) hi0 hj1, hx (i + 1) (j + 1) hi1 hj1,
      hx (i + 1) j hi1 hj0, hy i j hi0 hj0, hy i (j + 1) hi0 hj1,
      hy (i + 1) (j + 1) hi1 hj1, hy (i + 1) j hi1 hj0]
  push_cast
  field_simp
  ring

/-- Witness for C1: the 2×2 unit lattice with `dx = dy = 1` has
capacity 1 at cell `(0,0)`. -/
theorem velocities_capa_capa_one_on_cartesian_witness :
    2 ≤ xpEx.n1 ∧ (1 : ℝ) ≠ 0 ∧ (velocities_capa xpEx ypEx 1 1).data 2 0 0 = 1 :=
  ⟨by decide, by norm_num,
   velocities_capa_capa_one_on_cartesian xpEx ypEx 0 0 1 1 (by decide) (by decide)
     (by norm_num) (by norm_num)
     (fun i j _ _ => by simp [xpEx])
     (fun i j _ _ => by simp [ypEx])
     0 0 (by decide) (by decide)⟩

/-- Claim C8: the edge velocities returned by `velocities_capa` are
discretely divergence-free in exact arithmetic: at every interior cell,
`(aux[0][i+1,j] - aux[0][i,j])/dx + (aux[1][i,j+1] - aux[1][i,j])/dy = 0`,
because both components are finite differences of the single stream
function. -/
theorem velocities_capa_divergence_free
    (xp yp : Arr2) (dx dy : ℝ) (hdx : dx ≠ 0) (hdy : dy ≠ 0) (i j : ℕ)
    (hi : i + 1 < xp.n1 - 1) (hj : j + 1 < xp.n2 - 1) :
    ((velocities_capa xp yp dx dy).data 0 (i + 1) j -
     (velocities_capa xp yp dx dy).data 0 i j) / dx +
    ((velocities_capa xp yp dx dy).data 1 i (j + 1) -
     (velocities_capa xp yp dx dy).data 1 i j) / dy = 0 := by
  simp only [velocities_capa]
  norm_num
  field_simp
  ring

/-- Witness for C8: a concrete 3×3 corner array with `dx = dy = 1` at
cell `(0,0)`. -/
theorem velocities_capa_divergence_free_witness :
    (1 : ℝ) ≠ 0 ∧ 0 + 1 < xpEx3.n1 - 1 ∧
    ((velocities_capa xpEx3 ypEx3 1 1).data 0 (0 + 1) 0 -
     (velocities_capa xpEx3 ypEx3 1 1).data 0 0 0) / 1 +
    ((velocities_capa xpEx3 ypEx3 1 1).data 1 0 (0 + 1) -
     (velocities_capa xpEx3 ypEx3 1 1).data 1 0 0) / 1 = 0 :=
  ⟨by norm_num, by decide,
   velocities_capa_divergence_free xpEx3 ypEx3 1 1 (by norm_num) (by norm_num)
     0 0 (by decide) (by decide)⟩

/-- Claim C6: the aux array produced by `setaux` (via
`velocities_capa`) always has exactly 3 rows in its first dimension,
so `state.mcapa = 2` references a valid aux row. -/
theorem setaux_has_three_rows (state : St) (mx my : ℕ) :
    (setaux state mx my).n1 = 3 ∧ 2 < (setaux state mx my).n1 ∧
    ∀ (xp yp : Arr2) (dx dy : ℝ), (velocities_capa xp yp dx dy).n1 = 3 :=
  ⟨rfl, by norm_num [setaux, velocities_capa], fun _ _ _ _ => rfl⟩

/-- Claim C2: each custom auxiliary boundary callback raises exactly
when `dim` is not the grid's first dimension, and whenever it raises
the `auxbc` array comes back completely unchanged. -/
theorem velocities_bc_raise_iff (grid : GridT) (dim : String) (t : ℝ)
    (auxbc : Arr3) (mbc : ℕ) :
    ((velocities_upper grid dim t auxbc mbc).2 = none ↔
       dim = grid.dimensions.headI) ∧
    ((velocities_lower grid dim t auxbc mbc).2 = none ↔
       dim = grid.dimensions.headI) ∧
    (dim ≠ grid.dimensions.headI →
      (velocities_upper grid dim t auxbc mbc).1 = auxbc ∧
      (velocities_lower grid dim t auxbc mbc).1 = auxbc) := by
  by_cases h : dim = grid.dimensions.headI <;>
    simp [velocities_upper, velocities_lower, h]

/-- Witness for C2: with the `y` dimension passed to callbacks on a
grid whose first dimension is `x`, both callbacks raise and leave the
ghost array untouched. -/
theorem velocities_bc_raise_iff_witness :
    "y" ≠ gEx.dimensions.headI ∧
    (velocities_upper gEx "y" 0 aEx 2).1 = aEx ∧
    (velocities_lower gEx "y" 0 aEx 2).1 = aEx :=
  ⟨by decide, (velocities_bc_raise_iff gEx "y" 0 aEx 2).2.2 (by decide)⟩

/-- Claim C3: when `dim` is the grid's first dimension,
`velocities_upper` writes only the `mbc` ghost layers at the upper face
of dimension 0 (`auxbc[:, -mbc:, :]`) and leaves every other entry (and
the shape) of `auxbc` unchanged; `velocities_lower` writes only
`auxbc[:, 0:mbc, :]` and leaves every other entry unchanged.  Neither
raises. -/
theorem velocities_bc_write_only_ghost_layers
    (grid : GridT) (dim : String) (t : ℝ) (auxbc : Arr3) (mbc : ℕ)
    (hmbc : 0 < mbc) (hdim : dim = grid.dimensions.headI) :
    ((velocities_upper grid dim t auxbc mbc).2 = none ∧
     (velocities_upper grid dim t auxbc mbc).1.n1 = auxbc.n1 ∧
     (velocities_upper grid dim t auxbc mbc).1.n2 = auxbc.n2 ∧
     (velocities_upper grid dim t auxbc mbc).1.n3 = auxbc.n3 ∧
     ∀ f i j, ¬(auxbc.n2 - mbc ≤ i ∧ i < auxbc.n2) →
       (velocities_upper grid dim t auxbc mbc).1.data f i j = auxbc.data f i j) ∧
    ((velocities_lower grid dim t auxbc mbc).2 = none ∧
     (velocities_lower grid dim t auxbc mbc).1.n1 = auxbc.n1 ∧
     (velocities_lower grid dim t auxbc mbc).1.n2 = auxbc.n2 ∧
     (velocities_lower grid dim t auxbc mbc).1.n3 = auxbc.n3 ∧
     ∀ f i j, mbc ≤ i →
       (velocities_lower grid dim t auxbc mbc).1.data f i j = auxbc.data f i j) := by
  subst hdim
  refine ⟨⟨?_, ?_, ?_, ?_, ?_⟩, ?_, ?_, ?_, ?_, ?_⟩ <;>
    simp only [velocities_upper, velocities_lower] <;>
    rw [if_pos trivial] <;>
    try rfl
  · intro f i j hn
    exact if_neg hn
  · intro f i j hge
    exact if_neg (not_lt.mpr hge)

/-- Witness for C3: with the grid's first dimension and `mbc = 2`, an
interior entry and an entry past the lower ghost layers are both
untouched. -/
theorem velocities_bc_write_only_ghost_layers_witness :
    0 < 2 ∧ "x" = gEx.dimensions.headI ∧
    (velocities_upper gEx "x" 0 aEx 2).1.data 0 0 0 = aEx.data 0 0 0 ∧
    (velocities_lower gEx "x" 0 aEx 2).1.data 0 7 0 = aEx.data 0 7 0 :=
  ⟨by decide, by decide,
   (velocities_bc_write_only_ghost_layers gEx "x" 0 aEx 2 (by decide)
      (by decide)).1.2.2.2.2 0 0 0 (by decide),
   (velocities_bc_write_only_ghost_layers gEx "x" 0 aEx 2 (by decide)
      (by decide)).2.2.2.2.2 0 7 0 (by decide)⟩

/-- Claim C4: after `qinit`, `state.q[0,i,j]` is the sum of the two
Gaussian pulses `A1*exp(-beta1*((xp-x1)^2+(yp-y1)^2)) +
A2*exp(-beta2*((xp-x2)^2+(yp-y2)^2))` with `A1 = 1`, `A2 = -1`,
`beta1 = beta2 = 40`, centers `(-0.5, 0)` and `(0.5, 0)`, at the
physical cell centers; the write is in place (grid and `q` shape
preserved) and no row of `q` other than row 0 is modified. -/
theorem qinit_two_gaussians (state : St) (mx my i j m : ℕ) (hm : m ≠ 0) :
    (qinit state mx my).q.data 0 i j =
      1 * Real.exp (-40 * ((state.grid.p_center0 i j - (-0.5)) ^ 2 +
                           (state.grid.p_center1 i j - 0) ^ 2)) +
      (-1) * Real.exp (-40 * ((state.grid.p_center0 i j - 0.5) ^ 2 +
                              (state.grid.p_center1 i j - 0) ^ 2)) ∧
    (qinit state mx my).q.data m i j = state.q.data m i j ∧
    (qinit state mx my).grid = state.grid ∧
    (qinit state mx my).q.n1 = state.q.n1 ∧
    (qinit state mx my).q.n2 = state.q.n2 ∧
    (qinit state mx my).q.n3 = state.q.n3 := by
  refine ⟨?_, ?_, rfl, rfl, rfl, rfl⟩
  · simp [qinit]
  · simp [qinit, hm]

/-- Witness for C4: a concrete state, row `m = 1` untouched. -/
theorem qinit_two_gaussians_witness :
    (1 : ℕ) ≠ 0 ∧ (qinit stEx 2 2).q.data 1 0 0 = stEx.q.data 1 0 0 :=
  ⟨by decide, (qinit_two_gaussians stEx 2 2 0 0 1 (by decide)).2.1⟩

/-- Injectivity of the angle on one full turn: two angles in
`[0, 2π)` with the same cosine and sine are equal. -/
theorem angle_inj_on_Ico (θ ψ : ℝ) (hθ : θ ∈ Set.Ico 0 (2 * Real.pi))
    (hψ : ψ ∈ Set.Ico 0 (2 * Real.pi))
    (hc : Real.cos θ = Real.cos ψ) (hs : Real.sin θ = Real.sin ψ) : θ = ψ := by
  haveI : Fact ((0 : ℝ) < 2 * Real.pi) := ⟨by positivity⟩
  have h := Real.Angle.cos_sin_inj hc hs
  have hθ' : θ ∈ Set.Ico (0 : ℝ) (0 + 2 * Real.pi) := by simpa using hθ
  have hψ' : ψ ∈ Set.Ico (0 : ℝ) (0 + 2 * Real.pi) := by simpa using hψ
  exact (AddCircle.coe_eq_coe_iff_of_mem_Ico hθ' hψ').mp h

/-- Claim C5 (counterexample): `annulusMap` (the pointwise action of
`mapc2p_annulus`) is not injective on the closed logical domain
`[0.2, 1] × [0, 2π]` set by `advection_annulus`: the two distinct
logical points `(0.2, 0)` and `(0.2, 2π)` map to the same physical
point, so the mapping is not a bijection on that domain. -/
theorem annulusMap_not_injOn_closedDomain :
    ¬ Set.InjOn annulusMap annulusDomain := by
  intro h
  have h2pi : (0 : ℝ) < 2 * Real.pi := by positivity
  have h1 : ((0.2 : ℝ), (0 : ℝ)) ∈ annulusDomain :=
    ⟨⟨le_refl _, by norm_num⟩, ⟨le_refl _, h2pi.le⟩⟩
  have h2 : ((0.2 : ℝ), 2 * Real.pi) ∈ annulusDomain :=
    ⟨⟨le_refl _, by norm_num⟩, ⟨h2pi.le, le_refl _⟩⟩
  have heq : annulusMap (0.2, 0) = annulusMap (0.2, 2 * Real.pi) := by
    simp [annulusMap, Real.cos_two_pi, Real.sin_two_pi]
  have hpt := h h1 h2 heq
  have hsnd : (0 : ℝ) = 2 * Real.pi := congrArg Prod.snd hpt
  exact h2pi.ne' hsnd.symm

/-- Claim C5 (amended): `annulusMap` is injective — hence a bijection
onto its image — on the half-open logical domain `r ∈ [0.2, 1]`,
`θ ∈ [0, 2π)`. -/
theorem annulusMap_injOn_halfOpen :
    Set.InjOn annulusMap (Set.Icc (0.2 : ℝ) 1 ×ˢ Set.Ico 0 (2 * Real.pi)) := by
  rintro ⟨r₁, θ₁⟩ ⟨h1r, h1θ⟩ ⟨r₂, θ₂⟩ ⟨h2r, h2θ⟩ heq
  simp only [annulusMap, Prod.mk.injEq] at heq
  obtain ⟨hx, hy⟩ := heq
  have hr1 : (0 : ℝ) < r₁ := lt_of_lt_of_le (by norm_num) h1r.1
  have hr2 : (0 : ℝ) < r₂ := lt_of_lt_of_le (by norm_num) h2r.1
  have e1 : r₁ ^ 2 = (r₁ * Real.cos θ₁) ^ 2 + (r₁ * Real.sin θ₁) ^ 2 := by
    rw [mul_pow, mul_pow, ← mul_add, Real.cos_sq_add_sin_sq, mul_one]
  have e2 : r₂ ^ 2 = (r₂ * Real.cos θ₂) ^ 2 + (r₂ * Real.sin θ₂) ^ 2 := by
    rw [mul_pow, mul_pow, ← mul_add, Real.cos_sq_add_sin_sq, mul_one]
  have hrsq : r₁ ^ 2 = r₂ ^ 2 := by rw [e1, hx, hy, ← e2]
  have h0 : (r₁ - r₂) * (r₁ + r₂) = 0 := by linear_combination hrsq
  have hr : r₁ = r₂ := by
    rcases mul_eq_zero.mp h0 with h | h
    · linarith
    · linarith
  subst hr
  have hc : Real.cos θ₁ = Real.cos θ₂ := mul_left_cancel₀ hr1.ne' hx
  have hs : Real.sin θ₁ = Real.sin θ₂ := mul_left_cancel₀ hr1.ne' hy
  have hθ : θ₁ = θ₂ := angle_inj_on_Ico θ₁ θ₂ h1θ h2θ hc hs
  rw [hθ]

/-- Claim C9: at every point, the `euler_2d.py` initial density is one
of 1, 2, 3 (hence strictly positive), and the ideal-gas pressure
`(gamma-1)*(q3 - (q1^2+q2^2)/(2*q0))` with `gamma = 1.4` is strictly
positive, reading `q1`, `q2` as conserved momenta. -/
theorem euler_init_density_pressure_pos (x y : ℚ) :
    (euler_q0 x y = 1 ∨ euler_q0 x y = 2 ∨ euler_q0 x y = 3) ∧
    0 < euler_q0 x y ∧ 0 < pressure_from_conserved x y := by
  rcases lt_or_le x (0.5 : ℚ) with hx | hx <;>
    rcases lt_or_le y (0.5 : ℚ) with hy | hy
  · simp only [euler_q0, euler_q1, euler_q2, euler_q3, pressure_from_conserved,
      gamma, if_pos hx, if_neg hx.not_le, if_pos hy, if_neg hy.not_le]
    norm_num
  · simp only [euler_q0, euler_q1, euler_q2, euler_q3, pressure_from_conserved,
      gamma, if_pos hx, if_neg hx.not_le, if_neg hy.not_lt, if_pos hy]
    norm_num
  · simp only [euler_q0, euler_q1, euler_q2, euler_q3, pressure_from_conserved,
      gamma, if_neg hx.not_lt, if_pos hx, if_pos hy, if_neg hy.not_le]
    norm_num
  · simp only [euler_q0, euler_q1, euler_q2, euler_q3, pressure_from_conserved,
      gamma, if_neg hx.not_lt, if_pos hx, if_neg hy.not_lt, if_pos hy]
    norm_num

/-- The velocity field derived from `stream` evaluates to the rigid
clockwise rotation field `(2π y, -2π x)`. -/
theorem streamVel_eq (p : ℝ × ℝ) :
    streamVel p = (2 * Real.pi * p.2, -(2 * Real.pi * p.1)) := by
  have h1 : HasDerivAt (fun y : ℝ => stream p.1 y) (Real.pi * (2 * p.2 ^ 1)) p.2 := by
    simpa only [stream] using
      (((hasDerivAt_pow 2 p.2).const_add (p.1 ^ 2)).const_mul Real.pi)
  have h2 : HasDerivAt (fun x : ℝ => stream x p.2) (Real.pi * (2 * p.1 ^ 1)) p.1 := by
    simpa only [stream] using
      (((hasDerivAt_pow 2 p.1).add_const (p.2 ^ 2)).const_mul Real.pi)
  unfold streamVel
  rw [h1.deriv, h2.deriv]
  simp only [Prod.mk.injEq]
  constructor <;> ring

/-- Claim C7 (spec-modelled): in the exact transport semantics of the
annulus scenario, `rotFlow` is the characteristic flow of the velocity
field derived from `stream` (its two components solve
`x' = u(x,y)`, `y' = v(x,y)` with `(u,v) = streamVel`), it starts at
the identity, and advancing to `t = 1` — one full rotation period —
returns every solution value exactly to its initial value. -/
theorem annulus_full_rotation_returns_initial (q0 : ℝ × ℝ → ℝ) (p : ℝ × ℝ) (t : ℝ) :
    HasDerivAt (fun s => (rotFlow s p).1) ((streamVel (rotFlow t p)).1) t ∧
    HasDerivAt (fun s => (rotFlow s p).2) ((streamVel (rotFlow t p)).2) t ∧
    rotFlow 0 p = p ∧
    exactAdvection q0 1 p = q0 p := by
  have hlin : HasDerivAt (fun s : ℝ => 2 * Real.pi * s) (2 * Real.pi) t := by
    simpa using (hasDerivAt_id t).const_mul (2 * Real.pi)
  have hcos : HasDerivAt (fun s : ℝ => Real.cos (2 * Real.pi * s))
      (-Real.sin (2 * Real.pi * t) * (2 * Real.pi)) t :=
    (Real.hasDerivAt_cos (2 * Real.pi * t)).comp t hlin
  have hsin : HasDerivAt (fun s : ℝ => Real.sin (2 * Real.pi * s))
      (Real.cos (2 * Real.pi * t) * (2 * Real.pi)) t :=
    (Real.hasDerivAt_sin (2 * Real.pi * t)).comp t hlin
  refine ⟨?_, ?_, ?_, ?_⟩
  · have h := (hcos.const_mul p.1).add (hsin.const_mul p.2)
    have he : (streamVel (rotFlow t p)).1 =
        p.1 * (-Real.sin (2 * Real.pi * t) * (2 * Real.pi)) +
        p.2 * (Real.cos (2 * Real.pi * t) * (2 * Real.pi)) := by
      rw [streamVel_eq]
      simp only [rotFlow]
      ring
    rw [he]
    simpa only [rotFlow] using h
  · have h := ((hsin.const_mul p.1).neg).add (hcos.const_mul p.2)
    have he : (streamVel (rotFlow t p)).2 =
        -(p.1 * (Real.cos (2 * Real.pi * t) * (2 * Real.pi))) +
        p.2 * (-Real.sin (2 * Real.pi * t) * (2 * Real.pi)) := by
      rw [streamVel_eq]
      simp only [rotFlow]
      ring
    rw [he]
    simpa only [rotFlow] using h
  · simp [rotFlow]
  · simp [exactAdvection, rotFlow, Real.cos_two_pi, Real.sin_two_pi]

/-- Claim C10: the geometry helpers `mapc2p_annulus`,
`velocities_capa`, and `stream` never mutate their input arrays: in
the heap-level reading of each body, every store targets only the
freshly allocated result (addresses distinct from the inputs), every
input array reads back unchanged after the call, and the result's
contents are the pure function of the argument contents. -/
theorem geometry_helpers_no_mutation
    (h2 : Heap2) (h3 : Heap3) (mC0 mC1 out0 out1 xpId ypId auxId : ℕ)
    (h00 : out0 ≠ mC0) (h01 : out0 ≠ mC1) (h10 : out1 ≠ mC0) (h11 : out1 ≠ mC1)
    (hout : out0 ≠ out1) (grid : GridT) (dx dy : ℝ) :
    ((mapc2p_annulusH h2 mC0 mC1 out0 out1).1 mC0 = h2 mC0 ∧
     (mapc2p_annulusH h2 mC0 mC1 out0 out1).1 mC1 = h2 mC1 ∧
     ((mapc2p_annulusH h2 mC0 mC1 out0 out1).1 out0,
      (mapc2p_annulusH h2 mC0 mC1 out0 out1).1 out1) =
        mapc2p_annulus grid (h2 mC0, h2 mC1)) ∧
    ((velocities_capaH h2 h3 xpId ypId dx dy auxId).1 = h2 ∧
     (∀ b, b ≠ auxId → (velocities_capaH h2 h3 xpId ypId dx dy auxId).2 b = h3 b) ∧
     (velocities_capaH h2 h3 xpId ypId dx dy auxId).2 auxId =
       velocities_capa (h2 xpId) (h2 ypId) dx dy) ∧
    ((streamH h2 xpId ypId).1 = h2 ∧
     (streamH h2 xpId ypId).2 =
       ⟨(h2 xpId).n1, (h2 xpId).n2,
        fun i j => stream ((h2 xpId).data i j) ((h2 ypId).data i j)⟩) := by
  refine ⟨⟨?_, ?_, ?_⟩, ⟨rfl, ?_, ?_⟩, rfl, rfl⟩
  · simp only [mapc2p_annulusH]
    rw [Function.update_noteq (Ne.symm h10), Function.update_noteq (Ne.symm h00)]
  · simp only [mapc2p_annulusH]
    rw [Function.update_noteq (Ne.symm h11), Function.update_noteq (Ne.symm h01)]
  · simp only [mapc2p_annulusH, mapc2p_annulus]
    rw [Function.update_noteq hout, Function.update_same, Function.update_same]
  · intro b hb
    simp only [velocities_capaH]
    exact Function.update_noteq hb _ _
  · simp only [velocities_capaH]
    exact Function.update_same _ _ _

/-- Witness for C10: concrete heaps and distinct addresses. -/
theorem geometry_helpers_no_mutation_witness :
    (2 : ℕ) ≠ 0 ∧ (2 : ℕ) ≠ 1 ∧ (3 : ℕ) ≠ 0 ∧ (3 : ℕ) ≠ 1 ∧ (2 : ℕ) ≠ 3 ∧
    (mapc2p_annulusH h2Ex 0 1 2 3).1 0 = h2Ex 0 ∧
    (velocities_capaH h2Ex h3Ex 0 1 1 1 5).2 5 =
      velocities_capa (h2Ex 0) (h2Ex 1) 1 1 :=
  ⟨by decide, by decide, by decide, by decide, by decide,
   (geometry_helpers_no_mutation h2Ex h3Ex 0 1 2 3 0 1 5 (by decide) (by decide)
      (by decide) (by decide) (by decide) gEx 1 1).1.1,
   (geometry_helpers_no_mutation h2Ex h3Ex 0 1 2 3 0 1 5 (by decide) (by decide)
      (by decide) (by decide) (by decide) gEx 1 1).2.1.2.2⟩
